import Mathlib

set_option autoImplicit false

/-!
Shallow embedding of the jscodeshift-based detection utilities of the
class2hooks repository (its shared utils module: findModule, hasModule,
hasReact, findReactComponentNameByParent, findReactES6ClassDeclarationByParent,
findReactES6ClassDeclaration, hasReactES6Class, findJSX, hasJSX,
hasOnlyRenderMethod, isRenderMethod, findComponentDidCatchMethod,
hasComponentDidCatchMethod, findGetDerivedStateFromErrorMethod,
hasGetDerivedStateFromErrorMethod, getClassName), together with theorems
settling the specification claims.

The tree model keeps exactly the shape information the selectors inspect:
node kinds, literal sources of ImportDeclaration nodes, their specifiers,
the superClass expression of a ClassDeclaration, the key of a
MethodDefinition, and children for the generic subtree query.
-/

namespace Class2Hooks

/-- Superclass expressions as matched by the locator selectors: a bare
identifier, a member access of an object and a property, or anything else. -/
inductive Expr where
  | ident (name : String)
  | member (obj : Expr) (prop : Expr)
  | otherExpr
deriving DecidableEq

/-- Method keys: a plain identifier, a literal, or another (computed)
expression. -/
inductive Key where
  | ident (name : String)
  | lit (value : String)
  | otherKey
deriving DecidableEq

/-- Specifiers of an ImportDeclaration: a named ImportSpecifier carrying the
imported name and the (possibly renamed) locally bound name, a default
specifier, or a namespace specifier. -/
inductive ImportSpec where
  | importSpecifier (imported : String) (localName : String)
  | importDefaultSpecifier (localName : String)
  | importNamespaceSpecifier (localName : String)
deriving DecidableEq

/-- Syntax-tree nodes. The source of an ImportDeclaration is its string
Literal value (the standard grammar the engine assumes); a ClassDeclaration
has an optional identifier (null for anonymous classes), an optional
superClass expression, and a body of members; a MethodDefinition has a key
and the nodes of its function value. -/
inductive Node where
  | program (body : List Node)
  | importDecl (source : String) (specifiers : List ImportSpec)
  | classDecl (id : Option String) (superClass : Option Expr) (body : List Node)
  | methodDef (key : Key) (body : List Node)
  | jsxElement (children : List Node)
  | otherNode (children : List Node)

/-- Kind test for ImportDeclaration nodes. -/
def isImportDecl : Node → Bool
  | .importDecl _ _ => true
  | _ => false

/-- Kind test for ClassDeclaration nodes. -/
def isClassDecl : Node → Bool
  | .classDecl _ _ _ => true
  | _ => false

/-- Kind test for MethodDefinition nodes. -/
def isMethodDef : Node → Bool
  | .methodDef _ _ => true
  | _ => false

/-- Kind test for JSX element nodes. -/
def isJSXElement : Node → Bool
  | .jsxElement _ => true
  | _ => false

/-- Literal source of an ImportDeclaration, absent on any other node. -/
def importSource : Node → Option String
  | .importDecl s _ => some s
  | _ => none

/-- Specifier list of an ImportDeclaration, empty on any other node. -/
def importSpecifiers : Node → List ImportSpec
  | .importDecl _ sp => sp
  | _ => []

/-- The superClass expression of a ClassDeclaration, absent otherwise. -/
def superClassOf : Node → Option Expr
  | .classDecl _ sc _ => sc
  | _ => none

/-- The key of a MethodDefinition, absent otherwise. -/
def methodKey : Node → Option Key
  | .methodDef k _ => some k
  | _ => none

/-- Models the bracket access key["name"] used by the lifecycle finders: a
name is produced only when the key node is an Identifier. -/
def keyNameOfNode : Node → Option String
  | .methodDef (.ident n) _ => some n
  | _ => none

/-- Local (possibly renamed) identifier bound by a specifier, i.e. its
local.name field. -/
def localNameOf : ImportSpec → String
  | .importSpecifier _ l => l
  | .importDefaultSpecifier l => l
  | .importNamespaceSpecifier l => l

/-- Selector used on ImportSpecifier nodes: a named specifier whose imported
identifier equals the requested exported name. -/
def isComponentSpecifierFor (parentClassName : String) : ImportSpec → Bool
  | .importSpecifier imported _ => imported == parentClassName
  | _ => false

mutual
/-- Generic tree query underlying Collection.find: collects, in document
order, every node of the subtree (the root included) satisfying the
predicate. -/
def findNodes (p : Node → Bool) : Node → List Node
  | .program body =>
      (if p (.program body) then [Node.program body] else []) ++ findNodesList p body
  | .importDecl s sp =>
      if p (.importDecl s sp) then [Node.importDecl s sp] else []
  | .classDecl i sc body =>
      (if p (.classDecl i sc body) then [Node.classDecl i sc body] else []) ++
        findNodesList p body
  | .methodDef k body =>
      (if p (.methodDef k body) then [Node.methodDef k body] else []) ++
        findNodesList p body
  | .jsxElement cs =>
      (if p (.jsxElement cs) then [Node.jsxElement cs] else []) ++ findNodesList p cs
  | .otherNode cs =>
      (if p (.otherNode cs) then [Node.otherNode cs] else []) ++ findNodesList p cs

/-- The same query over a list of sibling subtrees, in order. -/
def findNodesList (p : Node → Bool) : List Node → List Node
  | [] => []
  | n :: ns => findNodes p n ++ findNodesList p ns
end

/-- Embeds findModule: every ImportDeclaration node (with a Literal source)
whose source value equals the queried module name. -/
def findModule (t : Node) (module : String) : List Node :=
  (findNodes isImportDecl t).filter (fun d => importSource d == some module)

/-- Embeds hasModule: the file imports the module, decided by the matching
import-declaration collection having size exactly one. -/
def hasModule (t : Node) (module : String) : Bool :=
  (findModule t module).length == 1

/-- Embeds hasReact: the disjunction of hasModule over the three accepted
framework module spellings. -/
def hasReact (t : Node) : Bool :=
  hasModule t "React" || hasModule t "react" || hasModule t "react-native"

/-- The closed set of accepted framework module spellings, for stating the
claims about hasReact. -/
def acceptedSpellings : List String :=
  ["React", "react", "react-native"]

/-- Embeds isRenderMethod: the node is a MethodDefinition, its key is an
Identifier, and that identifier's name is "render". -/
def isRenderMethod : Node → Bool
  | .methodDef (.ident name) _ => name == "render"
  | _ => false

/-- Embeds hasOnlyRenderMethod: the MethodDefinition nodes of the subtree
that are not render methods form a collection of size zero. -/
def hasOnlyRenderMethod (path : Node) : Bool :=
  ((findNodes isMethodDef path).filter (fun p => !isRenderMethod p)).length == 0

/-- Embeds findReactComponentNameByParent: all ImportDeclaration nodes are
filtered by the constant predicate hasReact of the whole tree, the first
ImportSpecifier among them whose imported name equals the requested parent
class name is taken, and its local name is returned, or undefined (none)
when there is no such specifier. -/
def findReactComponentNameByParent (t : Node) (parentClassName : String) :
    Option String :=
  let reactImportDeclaration :=
    (findNodes isImportDecl t).filter (fun _ => hasReact t)
  let componentImportSpecifier :=
    ((reactImportDeclaration.flatMap importSpecifiers).filter
      (isComponentSpecifierFor parentClassName)).head?
  componentImportSpecifier.map localNameOf

/-- Embeds findReactES6ClassDeclarationByParent: when an alias was resolved
the selector is a bare Identifier superclass equal to the alias; otherwise
the fallback selector is a MemberExpression superclass whose object is the
Identifier "React" and whose property is the Identifier "Component" (the
property name is hardcoded in the source, whatever parent was requested). -/
def findReactES6ClassDeclarationByParent (t : Node) (parentClassName : String) :
    List Node :=
  match findReactComponentNameByParent t parentClassName with
  | some componentImport =>
      (findNodes isClassDecl t).filter
        (fun c => superClassOf c == some (Expr.ident componentImport))
  | none =>
      (findNodes isClassDecl t).filter
        (fun c =>
          superClassOf c ==
            some (Expr.member (Expr.ident "React") (Expr.ident "Component")))

/-- Embeds findReactES6ClassDeclaration: search with parent "Component";
when that collection has size zero, search again with "PureComponent". -/
def findReactES6ClassDeclaration (t : Node) : List Node :=
  let classDeclarations := findReactES6ClassDeclarationByParent t "Component"
  if classDeclarations.length == 0 then
    findReactES6ClassDeclarationByParent t "PureComponent"
  else
    classDeclarations

/-- Embeds hasReactES6Class: the located collection is nonempty. -/
def hasReactES6Class (t : Node) : Bool :=
  decide (0 < (findReactES6ClassDeclaration t).length)

/-- Embeds findJSX: all JSX element nodes of the tree. -/
def findJSX (t : Node) : List Node :=
  findNodes isJSXElement t

/-- Embeds hasJSX: the JSX collection is nonempty. -/
def hasJSX (t : Node) : Bool :=
  decide (0 < (findJSX t).length)

/-- Embeds findComponentDidCatchMethod: MethodDefinition nodes whose key
name (bracket access) is "componentDidCatch". -/
def findComponentDidCatchMethod (t : Node) : List Node :=
  (findNodes isMethodDef t).filter
    (fun element => keyNameOfNode element == some "componentDidCatch")

/-- Embeds hasComponentDidCatchMethod: one or more matches. -/
def hasComponentDidCatchMethod (t : Node) : Bool :=
  decide (0 < (findComponentDidCatchMethod t).length)

/-- Embeds findGetDerivedStateFromErrorMethod: MethodDefinition nodes whose
key name (bracket access) is "getDerivedStateFromError". -/
def findGetDerivedStateFromErrorMethod (t : Node) : List Node :=
  (findNodes isMethodDef t).filter
    (fun element => keyNameOfNode element == some "getDerivedStateFromError")

/-- Embeds hasGetDerivedStateFromErrorMethod: one or more matches. -/
def hasGetDerivedStateFromErrorMethod (t : Node) : Bool :=
  decide (0 < (findGetDerivedStateFromErrorMethod t).length)

/-- Embeds getClassName, i.e. the projection path.node.id.name: when the
class is anonymous its id is null and the JS property access throws a
TypeError at runtime, modeled as an error value. -/
def getClassName : Node → Except String String
  | .classDecl (some n) _ _ => .ok n
  | .classDecl none _ _ => .error "TypeError: Cannot read property name of null"
  | _ => .error "TypeError: not a ClassDeclaration"


/-- Written after the amended wording of the alias-resolution claim: when
the whole tree passes hasReact, the first named specifier in document
order, taken across every import declaration of the file regardless of
that declaration's own source, whose imported name equals the exported
name yields its local name; otherwise the result is absent. -/
def resolveAliasAmendedModel (t : Node) (exportedName : String) : Option String :=
  if hasReact t then
    (((findNodes isImportDecl t).flatMap importSpecifiers).filter
        (isComponentSpecifierFor exportedName)).head?.map localNameOf
  else
    none

/-- Concrete class extending the qualified React.Component member shape. -/
def classA : Node :=
  Node.classDecl (some "A")
    (some (Expr.member (Expr.ident "React") (Expr.ident "Component"))) []

/-- Concrete class extending the bare identifier Foo. -/
def classB : Node :=
  Node.classDecl (some "B") (some (Expr.ident "Foo")) []

/-- Concrete tree importing the framework by default import and using the
qualified React.Component superclass. -/
def qualifiedTree : Node :=
  Node.program
    [Node.importDecl "react" [ImportSpec.importDefaultSpecifier "React"],
     classA]

/-- Concrete tree importing the base class renamed to Foo and extending the
bare identifier Foo. -/
def renamedTree : Node :=
  Node.program
    [Node.importDecl "react" [ImportSpec.importSpecifier "Component" "Foo"],
     classB]

/-- Concrete class named Greeter extending React.PureComponent. -/
def greeterClass : Node :=
  Node.classDecl (some "Greeter")
    (some (Expr.member (Expr.ident "React") (Expr.ident "PureComponent")))
    [Node.methodDef (Key.ident "render") []]

/-- Concrete class named Plain extending React.Component. -/
def plainClass : Node :=
  Node.classDecl (some "Plain")
    (some (Expr.member (Expr.ident "React") (Expr.ident "Component")))
    [Node.methodDef (Key.ident "render") []]

/-- Concrete tree with a default framework import, a class extending
React.PureComponent and a class extending React.Component. -/
def pureBugTree : Node :=
  Node.program
    [Node.importDecl "react" [ImportSpec.importDefaultSpecifier "React"],
     greeterClass,
     plainClass]

/-- Concrete tree with a default framework import next to a named import of
"Component" from the unrelated module "lodash". -/
def mixedImportTree : Node :=
  Node.program
    [Node.importDecl "react" [ImportSpec.importDefaultSpecifier "React"],
     Node.importDecl "lodash" [ImportSpec.importSpecifier "Component" "C"]]

/-- Concrete class with zero method definitions. -/
def zeroMethodClass : Node :=
  Node.classDecl (some "Empty")
    (some (Expr.member (Expr.ident "React") (Expr.ident "Component"))) []

/-- Concrete anonymous class declaration (null id) extending the qualified
React.Component shape. -/
def anonymousClass : Node :=
  Node.classDecl none
    (some (Expr.member (Expr.ident "React") (Expr.ident "Component")))
    [Node.methodDef (Key.ident "render") []]

/-- Concrete class whose superclass is syntactically React.Component in a
tree with no accepted framework import at all. -/
def ghostClass : Node :=
  Node.classDecl (some "Ghost")
    (some (Expr.member (Expr.ident "React") (Expr.ident "Component"))) []

/-- Concrete tree containing only ghostClass and no import declaration. -/
def ghostTree : Node :=
  Node.program [ghostClass]

/-- Concrete tree importing only the unrelated module "angular" while a
class extends the qualified React.Component shape. -/
def unimportedTree : Node :=
  Node.program
    [Node.importDecl "angular" [],
     Node.classDecl (some "A")
       (some (Expr.member (Expr.ident "React") (Expr.ident "Component"))) []]

/-- Concrete tree importing only the unrelated module "lodash". -/
def lodashOnlyTree : Node :=
  Node.program [Node.importDecl "lodash" []]

/-- Concrete tree whose base class is imported renamed to Base and whose
class extends that bare identifier. -/
def tierTree : Node :=
  Node.program
    [Node.importDecl "react" [ImportSpec.importSpecifier "Component" "Base"],
     Node.classDecl (some "C") (some (Expr.ident "Base")) []]

/-- Concrete class carrying both blocking lifecycle hooks and a render
method. -/
def catchClass : Node :=
  Node.classDecl (some "Boundary")
    (some (Expr.member (Expr.ident "React") (Expr.ident "Component")))
    [Node.methodDef (Key.ident "componentDidCatch") [],
     Node.methodDef (Key.ident "getDerivedStateFromError") [],
     Node.methodDef (Key.ident "render") []]

/-- Filtering a list by a constant boolean keeps everything or nothing. -/
theorem filter_const {α : Type} (b : Bool) (l : List α) :
    l.filter (fun _ => b) = if b then l else [] := by
  induction l with
  | nil => cases b <;> rfl
  | cons x xs ih => cases b <;> simp_all

/-- A list has positive length exactly when it has a member. -/
theorem length_pos_iff_mem {α : Type} {l : List α} :
    0 < l.length ↔ ∃ a, a ∈ l := by
  cases l <;> simp

/-- Membership in the parent-"Component" tier propagates to the top-level
locator result, since a member makes the first tier nonempty. -/
theorem mem_top_of_mem_component_tier {t c : Node}
    (h : c ∈ findReactES6ClassDeclarationByParent t "Component") :
    c ∈ findReactES6ClassDeclaration t := by
  unfold findReactES6ClassDeclaration
  have hne : findReactES6ClassDeclarationByParent t "Component" ≠ [] :=
    List.ne_nil_of_mem h
  have hlen : ¬((findReactES6ClassDeclarationByParent t "Component").length = 0) := by
    simpa [List.length_eq_zero] using hne
  simp only [beq_iff_eq, if_neg hlen]
  exact h

/-- A node's bracket-access key name is a given string exactly when the
node is a MethodDefinition whose key is that Identifier. -/
theorem keyNameOfNode_eq_iff {m : Node} {s : String} :
    keyNameOfNode m = some s ↔ methodKey m = some (Key.ident s) := by
  cases m with
  | methodDef k body => cases k <;> simp [keyNameOfNode, methodKey]
  | program body => simp [keyNameOfNode, methodKey]
  | importDecl src sp => simp [keyNameOfNode, methodKey]
  | classDecl i sc body => simp [keyNameOfNode, methodKey]
  | jsxElement cs => simp [keyNameOfNode, methodKey]
  | otherNode cs => simp [keyNameOfNode, methodKey]

/-- The lifecycle finder collection is nonempty exactly when some
MethodDefinition of the subtree has the hook name as Identifier key. -/
theorem lifecycle_find_iff (t : Node) (name : String) :
    0 < ((findNodes isMethodDef t).filter
          (fun e => keyNameOfNode e == some name)).length ↔
      ∃ m ∈ findNodes isMethodDef t, methodKey m = some (Key.ident name) := by
  rw [length_pos_iff_mem]
  constructor
  · rintro ⟨a, ha⟩
    rcases List.mem_filter.mp ha with ⟨hmem, hp⟩
    exact ⟨a, hmem, keyNameOfNode_eq_iff.mp (by simpa using hp)⟩
  · rintro ⟨m, hmem, hkey⟩
    exact ⟨m, List.mem_filter.mpr ⟨hmem, by simp [keyNameOfNode_eq_iff.mpr hkey]⟩⟩

/-- The render-only check counts no non-render method exactly when every
method in the collection is a render method. -/
theorem no_nonrender_iff_all (l : List Node) :
    ((l.filter (fun p => !isRenderMethod p)).length == 0) = l.all isRenderMethod := by
  induction l with
  | nil => rfl
  | cons x xs ih => cases hx : isRenderMethod x <;> simp_all

/-- Claim C7: hasModule returns true iff exactly one import declaration of
the tree has a literal source equal to the queried module name; zero
matching imports or two or more (the same module imported twice) yield
false, and the function is total, never an error. -/
theorem hasModule_iff_exactly_one (t : Node) (m : String) :
    hasModule t m = true ↔
      (findNodes isImportDecl t).countP (fun d => importSource d == some m) = 1 := by
  simp [hasModule, findModule, List.countP_eq_length_filter]

/-- Claim C8: hasReact holds exactly when some spelling of the closed
accepted set is imported (disjunction over the set by exact string
equality), and a tree whose import sources all avoid the set yields
false. -/
theorem hasReact_iff_accepted (t : Node) :
    (hasReact t = true ↔ ∃ m ∈ acceptedSpellings, hasModule t m = true) ∧
    ((∀ d ∈ findNodes isImportDecl t, ∀ m ∈ acceptedSpellings,
        importSource d ≠ some m) → hasReact t = false) := by
  constructor
  · constructor
    · intro h
      have hd : hasModule t "React" = true ∨ hasModule t "react" = true ∨
          hasModule t "react-native" = true := by
        simpa [hasReact, Bool.or_assoc] using h
      rcases hd with h1 | h2 | h3
      · exact ⟨"React", by simp [acceptedSpellings], h1⟩
      · exact ⟨"react", by simp [acceptedSpellings], h2⟩
      · exact ⟨"react-native", by simp [acceptedSpellings], h3⟩
    · rintro ⟨m, hm, hmod⟩
      simp [acceptedSpellings] at hm
      rcases hm with rfl | rfl | rfl <;> simp [hasReact, hmod]
  · intro h
    have key : ∀ m ∈ acceptedSpellings, hasModule t m = false := by
      intro m hm
      have hnil : findModule t m = [] := by
        apply List.filter_eq_nil_iff.mpr
        intro d hd
        simp [h d hd m hm]
      simp [hasModule, hnil]
    simp [hasReact, key "React" (by simp [acceptedSpellings]),
      key "react" (by simp [acceptedSpellings]),
      key "react-native" (by simp [acceptedSpellings])]

/-- Witness for claim C8 at a concrete tree importing only "lodash": the
hypothesis holds there and hasReact is false. -/
theorem hasReact_iff_accepted_witness :
    (∀ d ∈ findNodes isImportDecl lodashOnlyTree, ∀ m ∈ acceptedSpellings,
        importSource d ≠ some m) ∧ hasReact lodashOnlyTree = false :=
  ⟨by decide, (hasReact_iff_accepted lodashOnlyTree).2 (by decide)⟩

/-- Claim C4 as amended: hasOnlyRenderMethod returns true iff every
MethodDefinition of the class subtree is the render method — vacuously
true when the class has zero methods — and false as soon as any non-render
member (constructor, lifecycle hook, custom method) is present. -/
theorem hasOnlyRenderMethod_iff_all_render (c : Node) :
    hasOnlyRenderMethod c = (findNodes isMethodDef c).all isRenderMethod := by
  unfold hasOnlyRenderMethod
  exact no_nonrender_iff_all _

/-- Counterexample to claim C4 as stated: a class with zero method
definitions, on which the code returns true while the claim demands
false. -/
theorem hasOnlyRenderMethod_zero_methods :
    findNodes isMethodDef zeroMethodClass = [] ∧
    hasOnlyRenderMethod zeroMethodClass = true :=
  ⟨rfl, rfl⟩

/-- Claim C6: the top-level locator returns the parent-"Component" search
result whenever it is nonempty, and exactly when that search yields zero
matches it returns the parent-"PureComponent" search result; in both cases
a collection (possibly empty) is returned, never an error. -/
theorem findReactES6ClassDeclaration_tiers (t : Node) :
    (findReactES6ClassDeclarationByParent t "Component" ≠ [] →
      findReactES6ClassDeclaration t =
        findReactES6ClassDeclarationByParent t "Component") ∧
    (findReactES6ClassDeclarationByParent t "Component" = [] →
      findReactES6ClassDeclaration t =
        findReactES6ClassDeclarationByParent t "PureComponent") := by
  constructor
  · intro h
    have hlen : ¬((findReactES6ClassDeclarationByParent t "Component").length = 0) := by
      simpa [List.length_eq_zero] using h
    simp [findReactES6ClassDeclaration, hlen]
  · intro h
    simp [findReactES6ClassDeclaration, h]

/-- Witness for claim C6 at a concrete tree whose first tier is nonempty:
the top-level result is the first-tier collection. -/
theorem findReactES6ClassDeclaration_tiers_witness :
    findReactES6ClassDeclarationByParent tierTree "Component" ≠ [] ∧
    findReactES6ClassDeclaration tierTree =
      findReactES6ClassDeclarationByParent tierTree "Component" := by
  have h1 : findReactES6ClassDeclarationByParent tierTree "Component" =
      [Node.classDecl (some "C") (some (Expr.ident "Base")) []] := rfl
  have hne : findReactES6ClassDeclarationByParent tierTree "Component" ≠ [] := by
    rw [h1]; exact List.cons_ne_nil _ _
  exact ⟨hne, (findReactES6ClassDeclaration_tiers tierTree).1 hne⟩

/-- Claim C9: applied to a class node, each blocking lifecycle predicate
holds exactly when the class subtree contains a MethodDefinition whose key
is an Identifier equal to the hook name ("componentDidCatch" and
"getDerivedStateFromError" respectively); methods outside the queried
subtree or with a non-Identifier key never satisfy it. -/
theorem lifecycle_predicates_iff (c : Node) (_hclass : isClassDecl c = true) :
    (hasComponentDidCatchMethod c = true ↔
      ∃ m ∈ findNodes isMethodDef c,
        methodKey m = some (Key.ident "componentDidCatch")) ∧
    (hasGetDerivedStateFromErrorMethod c = true ↔
      ∃ m ∈ findNodes isMethodDef c,
        methodKey m = some (Key.ident "getDerivedStateFromError")) := by
  constructor
  · rw [show hasComponentDidCatchMethod c =
        decide (0 < (findComponentDidCatchMethod c).length) from rfl,
      decide_eq_true_iff]
    exact lifecycle_find_iff c "componentDidCatch"
  · rw [show hasGetDerivedStateFromErrorMethod c =
        decide (0 < (findGetDerivedStateFromErrorMethod c).length) from rfl,
      decide_eq_true_iff]
    exact lifecycle_find_iff c "getDerivedStateFromError"

/-- Witness for claim C9 at a concrete class carrying both hooks: the
hypothesis holds and both predicates come out true. -/
theorem lifecycle_predicates_iff_witness :
    isClassDecl catchClass = true ∧
    hasComponentDidCatchMethod catchClass = true ∧
    hasGetDerivedStateFromErrorMethod catchClass = true := by
  have hfind : findNodes isMethodDef catchClass =
      [Node.methodDef (Key.ident "componentDidCatch") [],
       Node.methodDef (Key.ident "getDerivedStateFromError") [],
       Node.methodDef (Key.ident "render") []] := rfl
  refine ⟨rfl, ?_, ?_⟩
  · exact (lifecycle_predicates_iff catchClass rfl).1.mpr
      ⟨Node.methodDef (Key.ident "componentDidCatch") [],
        by rw [hfind]; exact List.Mem.head _, rfl⟩
  · exact (lifecycle_predicates_iff catchClass rfl).2.mpr
      ⟨Node.methodDef (Key.ident "getDerivedStateFromError") [],
        by rw [hfind]; exact List.mem_cons_of_mem _ (List.Mem.head _), rfl⟩

/-- Claim C2: alias transparency of the Base-Class Locator. A tree that
imports the framework and resolves no named alias, with a class extending
the qualified React.Component member shape, and a tree whose resolution
binds the exported "Component" to a renamed local identifier, with a class
extending that bare identifier, both get their class located by the
top-level locator. -/
theorem aliasTransparent
    (t1 t2 c1 c2 : Node) (f : String)
    (_h1 : hasReact t1 = true)
    (h2 : findReactComponentNameByParent t1 "Component" = none)
    (h3 : c1 ∈ findNodes isClassDecl t1)
    (h4 : superClassOf c1 =
      some (Expr.member (Expr.ident "React") (Expr.ident "Component")))
    (h5 : findReactComponentNameByParent t2 "Component" = some f)
    (h6 : c2 ∈ findNodes isClassDecl t2)
    (h7 : superClassOf c2 = some (Expr.ident f)) :
    c1 ∈ findReactES6ClassDeclaration t1 ∧
    c2 ∈ findReactES6ClassDeclaration t2 := by
  constructor
  · apply mem_top_of_mem_component_tier
    unfold findReactES6ClassDeclarationByParent
    rw [h2]
    exact List.mem_filter.mpr ⟨h3, by simp [h4]⟩
  · apply mem_top_of_mem_component_tier
    unfold findReactES6ClassDeclarationByParent
    rw [h5]
    exact List.mem_filter.mpr ⟨h6, by simp [h7]⟩

/-- Witness for claim C2 at two concrete trees: the qualified-form tree and
the renamed-import tree both have their class located. -/
theorem aliasTransparent_witness :
    hasReact qualifiedTree = true ∧
    findReactComponentNameByParent qualifiedTree "Component" = none ∧
    findReactComponentNameByParent renamedTree "Component" = some "Foo" ∧
    classA ∈ findReactES6ClassDeclaration qualifiedTree ∧
    classB ∈ findReactES6ClassDeclaration renamedTree := by
  have hm1 : classA ∈ findNodes isClassDecl qualifiedTree := by
    rw [show findNodes isClassDecl qualifiedTree = [classA] from rfl]
    exact List.Mem.head _
  have hm2 : classB ∈ findNodes isClassDecl renamedTree := by
    rw [show findNodes isClassDecl renamedTree = [classB] from rfl]
    exact List.Mem.head _
  have hmain := aliasTransparent qualifiedTree renamedTree classA classB "Foo"
    rfl rfl hm1 rfl rfl hm2 rfl
  exact ⟨rfl, rfl, rfl, hmain.1, hmain.2⟩

/-- Claim C1 (code evaluation at the failing input): on a tree with only a
default framework import, no alias resolves for "PureComponent", the tree
contains the Greeter class extending React.PureComponent and the Plain
class extending React.Component, yet the search for parent "PureComponent"
skips Greeter and returns exactly the class extending React.Component —
the fallback selector hardcodes the property name "Component" instead of
using the requested parent name. -/
theorem pureComponent_fallback_evaluation :
    findReactComponentNameByParent pureBugTree "PureComponent" = none ∧
    findNodes isClassDecl pureBugTree = [greeterClass, plainClass] ∧
    superClassOf greeterClass =
      some (Expr.member (Expr.ident "React") (Expr.ident "PureComponent")) ∧
    findReactES6ClassDeclarationByParent pureBugTree "PureComponent" =
      [plainClass] :=
  ⟨rfl, rfl, rfl, rfl⟩

/-- Counterexample to claim C3 as stated: with a default react import
present, the named specifier importing "Component" from the unrelated
module "lodash" produces the resolved local identifier "C", although the
only framework import declaration contains no "Component" specifier and
"lodash" is not an accepted spelling. -/
theorem resolveAlias_unrelated_module :
    findReactComponentNameByParent mixedImportTree "Component" = some "C" ∧
    findNodes isImportDecl mixedImportTree =
      [Node.importDecl "react" [ImportSpec.importDefaultSpecifier "React"],
       Node.importDecl "lodash" [ImportSpec.importSpecifier "Component" "C"]] ∧
    (importSpecifiers
        (Node.importDecl "react" [ImportSpec.importDefaultSpecifier "React"])).filter
      (isComponentSpecifierFor "Component") = [] ∧
    "lodash" ∉ acceptedSpellings :=
  ⟨rfl, rfl, rfl, by decide⟩

/-- Claim C3 as amended: the resolver returns a local identifier exactly as
the amended model describes — when the whole tree passes hasReact, the
first named specifier for the exported name across all import declarations
(regardless of each declaration's own source) yields its local name, and
otherwise the result is absent (undefined), never an error. -/
theorem findReactComponentNameByParent_amended (t : Node) (e : String) :
    findReactComponentNameByParent t e = resolveAliasAmendedModel t e := by
  unfold findReactComponentNameByParent resolveAliasAmendedModel
  cases h : hasReact t <;> simp [h, filter_const]

/-- Counterexample to claim C5 as stated: a tree with no import declaration
at all, where hasReact is false and yet the locator returns the class
extending the qualified React.Component shape — a nonempty collection. -/
theorem locator_nonempty_without_import :
    hasReact ghostTree = false ∧
    findReactES6ClassDeclaration ghostTree = [ghostClass] ∧
    findReactES6ClassDeclaration ghostTree ≠ [] := by
  have h : findReactES6ClassDeclaration ghostTree = [ghostClass] := rfl
  exact ⟨rfl, h, by rw [h]; exact List.cons_ne_nil _ _⟩

/-- Claim C5 as amended: when no import declaration has a source in the
accepted set, frameworkIsImported (hasReact) is false, but the Base-Class
Locator still returns every class declaration whose superclass is
syntactically the React.Component member shape, because the fallback
selector is applied without any import guard. -/
theorem no_import_locator (t : Node)
    (h : ∀ m ∈ acceptedSpellings, findModule t m = []) :
    hasReact t = false ∧
    findReactES6ClassDeclaration t =
      (findNodes isClassDecl t).filter
        (fun c => superClassOf c ==
          some (Expr.member (Expr.ident "React") (Expr.ident "Component"))) := by
  have hr : hasReact t = false := by
    simp [hasReact, hasModule, h "React" (by simp [acceptedSpellings]),
      h "react" (by simp [acceptedSpellings]),
      h "react-native" (by simp [acceptedSpellings])]
  have halias : ∀ p, findReactComponentNameByParent t p = none := by
    intro p
    unfold findReactComponentNameByParent
    simp [hr, filter_const]
  have htier : ∀ p, findReactES6ClassDeclarationByParent t p =
      (findNodes isClassDecl t).filter
        (fun c => superClassOf c ==
          some (Expr.member (Expr.ident "React") (Expr.ident "Component"))) := by
    intro p
    unfold findReactES6ClassDeclarationByParent
    rw [halias p]
  refine ⟨hr, ?_⟩
  unfold findReactES6ClassDeclaration
  rw [htier "Component", htier "PureComponent"]
  exact ite_self _

/-- Witness for claim C5 as amended, at a concrete tree importing only
"angular": the hypothesis holds, hasReact is false, and the locator still
returns the class extending React.Component. -/
theorem no_import_locator_witness :
    (∀ m ∈ acceptedSpellings, findModule unimportedTree m = []) ∧
    hasReact unimportedTree = false ∧
    findReactES6ClassDeclaration unimportedTree =
      [Node.classDecl (some "A")
        (some (Expr.member (Expr.ident "React") (Expr.ident "Component"))) []] := by
  have hhyp : ∀ m ∈ acceptedSpellings, findModule unimportedTree m = [] := by
    intro m hm
    fin_cases hm <;> rfl
  exact ⟨hhyp, (no_import_locator unimportedTree hhyp).1,
    ((no_import_locator unimportedTree hhyp).2).trans rfl⟩

/-- Counterexample to claim C10 as stated: on an anonymous class the
projection dereferences the null id, so the outcome is the thrown
TypeError, not an ok value and not an absence signal. -/
theorem getClassName_anonymous_throws :
    getClassName anonymousClass =
      Except.error "TypeError: Cannot read property name of null" ∧
    (getClassName anonymousClass).toOption = none :=
  ⟨rfl, rfl⟩

/-- Claim C10 as amended: getClassName projects the declared identifier
name of a named class declaration, and on an anonymous class declaration
the null id makes the property access throw a TypeError (an error outcome
rather than a returned absence signal). -/
theorem getClassName_amended (sc : Option Expr) (b : List Node) :
    (∀ n, getClassName (Node.classDecl (some n) sc b) = Except.ok n) ∧
    getClassName (Node.classDecl none sc b) =
      Except.error "TypeError: Cannot read property name of null" :=
  ⟨fun _ => rfl, rfl⟩

end Class2Hooks
